import Mathlib

/-!
Verification development for the StreekX AI-search core.

This file shallowly embeds the chat-session / streaming-response layer
(`generateSearchResponse` and its helpers) and the serverless HTTP proxy
handler, and proves the specified properties about them.

Modelling conventions:
* JavaScript values that may be `undefined` are `Option`s; JS string
  truthiness (`undefined` and `""` are falsy) is `jsTruthy` and the
  `x || d` default idiom on strings is `jsOrDefault`.
* The asynchronous stream returned by the provider is modelled by its
  observable outcome: the finite list of chunks it emits, together with
  whether creating the stream threw (`initFail`) or iteration threw
  after emitting a prefix (`midFail`).
* Side effects are made explicit: the `onChunk` callback invocations are
  collected in order into an event list, and the process-wide
  `chatSessions` map is threaded as explicit state.
-/

/-- JS truthiness of a possibly-undefined string: `undefined` and `""`
are falsy, every other string is truthy. -/
def jsTruthy : Option String → Bool
  | none => false
  | some s => !s.isEmpty

/-- The JS idiom `x || d` for a possibly-undefined string `x`:
yields `d` when `x` is `undefined` or `""`, otherwise `x`. -/
def jsOrDefault (x : Option String) (d : String) : String :=
  match x with
  | none => d
  | some s => if s.isEmpty then d else s

/-- Structure `SearchSource` from `types.ts`: a citation with display title and URI. -/
structure SearchSource where
  title : String
  uri : String
deriving DecidableEq, Repr

/-- The `web` object of a grounding chunk; `title` and `uri` may be absent. -/
structure WebRef where
  title : Option String
  uri : Option String
deriving DecidableEq, Repr

/-- One entry of `groundingMetadata.groundingChunks`; it may or may not
carry a `web` reference. -/
structure GroundingChunk where
  web : Option WebRef
deriving DecidableEq, Repr

/-- One element of the provider's streamed response sequence.
`text` is `chunk.text`; `groundingChunks` stands for the optional chain
`chunk.candidates?.[0]?.groundingMetadata?.groundingChunks` (it is `none`
whenever any link of that chain is absent). -/
structure StreamChunk where
  text : Option String
  groundingChunks : Option (List GroundingChunk)
deriving DecidableEq, Repr

/-- The result type of `generateSearchResponse`. -/
structure GenerationResult where
  text : String
  sources : List SearchSource
deriving DecidableEq, Repr

/-- The body of the `groundingChunks.forEach` loop in
`generateSearchResponse`: for each entry with a `web` reference push one
source, substituting `"Source"` / `"#"` for a falsy title / uri;
entries without `web` are skipped. -/
def extractSources (gcs : List GroundingChunk) : List SearchSource :=
  gcs.foldl
    (fun acc c =>
      match c.web with
      | some w => acc ++ [⟨jsOrDefault w.title "Source", jsOrDefault w.uri "#"⟩]
      | none => acc)
    []

/-- The `uniqueSources` computation of `generateSearchResponse`:
`sources.filter((source, index, self) => index === self.findIndex(t => t.uri === source.uri))`.
An element is kept exactly when its index equals the index of the first
element of the whole list carrying the same URI. -/
def uniqueSources (sources : List SearchSource) : List SearchSource :=
  (sources.enum.filter
      (fun p => sources.findIdx (fun t => t.uri == p.2.uri) == p.1)).map Prod.snd

/-- A live `Chat` object. Its conversational context is held provider-side;
for the registry claims only its identity matters, modelled by the
allocation counter value it was created with. -/
structure ChatSession where
  allocId : Nat
deriving DecidableEq, Repr

/-- Process-wide mutable state of the module: the `chatSessions` map
(modelled as an association list in insertion order) together with the
allocator used to give fresh `ChatSession` objects distinct identities. -/
structure ProcState where
  chatSessions : List (String × ChatSession)
  nextId : Nat
deriving DecidableEq, Repr

/-- Operation `Map.get`: the value stored under `k`, if any. -/
def mapGet (m : List (String × ChatSession)) (k : String) : Option ChatSession :=
  (m.find? (fun p => p.1 == k)).map Prod.snd

/-- Operation `Map.set`: overwrite the entry for `k` when present, else append. -/
def mapSet (m : List (String × ChatSession)) (k : String) (v : ChatSession) :
    List (String × ChatSession) :=
  if m.any (fun p => p.1 == k) then
    m.map (fun p => if p.1 == k then (k, v) else p)
  else
    m ++ [(k, v)]

/-- The session lookup/creation block at the top of
`generateSearchResponse`: `let chat = chatSessions.get(sessionId);
if (!chat) { chat = ai.chats.create(...); chatSessions.set(sessionId, chat); }`. -/
def getOrCreateSession (st : ProcState) (sessionId : String) :
    ChatSession × ProcState :=
  match mapGet st.chatSessions sessionId with
  | some chat => (chat, st)
  | none =>
      let chat : ChatSession := ⟨st.nextId⟩
      (chat,
        { chatSessions := mapSet st.chatSessions sessionId chat
          nextId := st.nextId + 1 })

/-- Observable outcome of awaiting and iterating a provider stream:
creation throws (`initFail`), iteration throws after emitting a prefix of
chunks (`midFail`), or the finite chunk sequence completes (`success`). -/
inductive StreamResult (α : Type) where
  | initFail : StreamResult α
  | midFail : List α → StreamResult α
  | success : List α → StreamResult α
deriving DecidableEq, Repr

/-- Whether this outcome is a thrown error (at creation or mid-iteration). -/
def StreamResult.isFailure : StreamResult α → Bool
  | .initFail => true
  | .midFail _ => true
  | .success _ => false

/-- The outcomes of the two provider calls a single
`generateSearchResponse` invocation can make: the grounded chat stream
(`chat.sendMessageStream`) and the fallback completion stream
(`ai.models.generateContentStream`). -/
structure ProviderEnv where
  primary : StreamResult StreamChunk
  fallback : StreamResult StreamChunk
deriving DecidableEq, Repr

/-- Loop body of the primary `for await` loop: accumulate truthy text into
`fullText` (recording the `onChunk` call), and push extracted sources. The
accumulator is `(fullText, sources, onChunk events so far)`. -/
def processChunk (acc : String × List SearchSource × List String)
    (chunk : StreamChunk) : String × List SearchSource × List String :=
  let (fullText, sources, events) := acc
  let (fullText, events) :=
    match chunk.text with
    | some t => if t.isEmpty then (fullText, events) else (fullText ++ t, events ++ [t])
    | none => (fullText, events)
  let sources :=
    match chunk.groundingChunks with
    | some gcs => sources ++ extractSources gcs
    | none => sources
  (fullText, sources, events)

/-- Loop body of the fallback `for await` loop: text accumulation only,
no source extraction. Accumulator is `(fullText, onChunk events so far)`. -/
def processFallbackChunk (acc : String × List String) (chunk : StreamChunk) :
    String × List String :=
  let (fullText, events) := acc
  match chunk.text with
  | some t => if t.isEmpty then (fullText, events) else (fullText ++ t, events ++ [t])
  | none => (fullText, events)

/-- The texts of the text-bearing chunks of a stream, in emission order
(a chunk is text-bearing when its `text` is defined and nonempty). -/
def chunkTexts (chunks : List StreamChunk) : List String :=
  chunks.filterMap
    (fun c =>
      match c.text with
      | some t => if t.isEmpty then none else some t
      | none => none)

/-- All sources extracted by the primary loop across a stream, in order. -/
def gatherSources : List StreamChunk → List SearchSource
  | [] => []
  | c :: cs =>
      (match c.groundingChunks with
       | some gcs => extractSources gcs
       | none => []) ++ gatherSources cs

/-- The body of the outer `try` block, after session setup: run the
primary stream. `.error evs` models a thrown error, carrying the `onChunk`
events already emitted before the throw. -/
def tryPrimary (primary : StreamResult StreamChunk) :
    Except (List String) (GenerationResult × List String) :=
  match primary with
  | .initFail => .error []
  | .midFail emitted =>
      let (_, _, events) := emitted.foldl processChunk ("", [], [])
      .error events
  | .success chunks =>
      let (fullText, sources, events) := chunks.foldl processChunk ("", [], [])
      .ok (⟨fullText, uniqueSources sources⟩, events)

/-- The fixed disclosure notice emitted at the start of the fallback path. -/
def fallbackNotice : String := "\n(Live search unavailable. Using offline knowledge.)\n\n"

/-- The fixed error message of the terminal failure state. -/
def connectionErrorMsg : String :=
  "\n\n(Error: Unable to connect to AI service. Please check your connection.)\n"

/-- The body of the inner `try` block: await the fallback stream, emit
the disclosure notice (accumulator and `onChunk`), then stream text.
`.error evs` models a thrown error with the events emitted before it;
note the notice is emitted only after stream creation succeeded. -/
def tryFallback (fallback : StreamResult StreamChunk) :
    Except (List String) (String × List String) :=
  match fallback with
  | .initFail => .error []
  | .midFail emitted =>
      let (_, events) :=
        emitted.foldl processFallbackChunk (fallbackNotice, [fallbackNotice])
      .error events
  | .success chunks =>
      let (fullText, events) :=
        chunks.foldl processFallbackChunk (fallbackNotice, [fallbackNotice])
      .ok (fullText, events)

/-- The whole `catch (error)` branch: attempt the fallback; on its inner
failure emit the fixed error message via `onChunk` and return it as the
result text. Returns `(result, onChunk events of this branch)`. -/
def runCatchBranch (fallback : StreamResult StreamChunk) :
    GenerationResult × List String :=
  match tryFallback fallback with
  | .ok (fullText, events) => (⟨fullText, []⟩, events)
  | .error events => (⟨connectionErrorMsg, []⟩, events ++ [connectionErrorMsg])

/-- Everything a call to `generateSearchResponse` produces: the resolved
value, the ordered `onChunk` invocations, and the updated process state. -/
structure GenOutput where
  result : GenerationResult
  events : List String
  state : ProcState
deriving DecidableEq, Repr

/-- The public operation `generateSearchResponse(prompt, sessionId, onChunk)`.
The returned `Except` is the promise: `.error` would model a rejection
propagated to the caller. Session lookup/creation happens first; the
primary stream is attempted; any primary failure is caught and routed to
the fallback path, whose own failure is caught by the inner handler. -/
def generateSearchResponse (env : ProviderEnv) (prompt : String)
    (sessionId : String) (st : ProcState) : Except String GenOutput :=
  let (_chat, st') := getOrCreateSession st sessionId
  let _ := prompt
  match tryPrimary env.primary with
  | .ok (result, events) => .ok ⟨result, events, st'⟩
  | .error events =>
      let (result, fbEvents) := runCatchBranch env.fallback
      .ok ⟨result, events ++ fbEvents, st'⟩

/-! ## The serverless HTTP proxy (`supabase/functions/search/index.ts`) -/

/-- Concatenation of a list of strings in order (used to state that the
accumulated `fullText` is the in-order concatenation of the increments). -/
def concatList : List String → String
  | [] => ""
  | s :: rest => s ++ concatList rest

/-- Well-formedness of the process state: the `chatSessions` map has no
duplicate keys, the stored `Chat` objects are pairwise distinct (they were
returned by distinct `ai.chats.create` calls), and every stored object was
allocated below the current counter. Holds of the initial empty state and
is preserved by `generateSearchResponse`. -/
def registryWF (st : ProcState) : Prop :=
  (st.chatSessions.map Prod.fst).Nodup ∧
  (st.chatSessions.map (fun p => p.2.allocId)).Nodup ∧
  ∀ p ∈ st.chatSessions, p.2.allocId < st.nextId

/-- The parsed JSON body of the incoming request; `query` may be absent. -/
structure ReqBody where
  query : Option String
deriving DecidableEq, Repr

/-- An incoming HTTP request as the handler observes it: its method and
the outcome of `await req.json()` (`.error` carries the thrown message). -/
structure ProxyRequest where
  method : String
  body : Except String ReqBody
deriving Repr

/-- Opaque stand-in for the provider's `groundingMetadata` object. -/
structure GroundingMetadataObj where
  payload : String
deriving DecidableEq, Repr

/-- One element of `data.candidates`. `text` stands for the optional
chain `content?.parts?.[0]?.text`. -/
structure Candidate where
  text : Option String
  groundingMetadata : Option GroundingMetadataObj
deriving DecidableEq, Repr

/-- The provider's HTTP reply: `ok` status flag, parsed candidates, and
`error?.message` of the error payload (for non-ok replies). -/
structure ProviderReply where
  ok : Bool
  candidates : List Candidate
  errorMessage : Option String
deriving DecidableEq, Repr

/-- External facts one proxy invocation depends on: the `GEMINI_API_KEY`
environment variable, and the outcome of `fetch` + `json()` on the
provider (`.error` carries the thrown message). -/
structure ProxyEnv where
  apiKey : Option String
  provider : Except String ProviderReply
deriving Repr

/-- A response body produced by the handler. -/
inductive ProxyBody where
  | plain : String → ProxyBody
  | payload : String → Option GroundingMetadataObj → ProxyBody
  | jsonError : String → ProxyBody
deriving DecidableEq, Repr

/-- An HTTP response: status code and body (CORS headers elided). -/
structure HttpResponse where
  status : Nat
  body : ProxyBody
deriving DecidableEq, Repr

/-- Placeholder answer substituted when the provider reply lacks the
expected text field. -/
def noAnswerPlaceholder : String :=
  "I couldn't generate an answer based on the search results."

/-- The `serve` handler of the proxy. OPTIONS short-circuits; otherwise
the `try` block parses the body, requires a truthy `query` and API key,
calls the provider, rejects non-ok replies, and returns
`{answer, groundingMetadata}`; every thrown error is caught and turned
into HTTP 500 with `{error: message}`. -/
def serveHandler (env : ProxyEnv) (req : ProxyRequest) : HttpResponse :=
  if req.method == "OPTIONS" then
    ⟨200, .plain "ok"⟩
  else
    match req.body with
    | .error msg => ⟨500, .jsonError msg⟩
    | .ok body =>
        if !jsTruthy body.query then
          ⟨500, .jsonError "Missing 'query' in request body"⟩
        else if !jsTruthy env.apiKey then
          ⟨500, .jsonError "Server Misconfiguration: GEMINI_API_KEY is missing"⟩
        else
          match env.provider with
          | .error msg => ⟨500, .jsonError msg⟩
          | .ok reply =>
              if !reply.ok then
                ⟨500, .jsonError
                  (jsOrDefault reply.errorMessage
                    "Failed to generate content from Gemini")⟩
              else
                let candidate := reply.candidates.head?
                let answer :=
                  jsOrDefault (candidate.bind Candidate.text) noAnswerPlaceholder
                let groundingMetadata :=
                  candidate.bind Candidate.groundingMetadata
                ⟨200, .payload answer groundingMetadata⟩

/-! ## Source deduplication (C2) -/

theorem find?_eq_get_of_findIdx {α : Type} (p : α → Bool) (l : List α)
    (h : l.findIdx p < l.length) :
    l.find? p = l[l.findIdx p]? := by
  induction l with
  | nil => simp at h
  | cons a as ih =>
    by_cases hpa : p a = true
    · simp [List.find?_cons, hpa, List.findIdx_cons]
    · have hpa' : p a = false := by simp [hpa]
      rw [List.find?_cons_of_neg _ (by simp [hpa'])]
      rw [List.findIdx_cons, hpa'] at h ⊢
      simp only [cond_false] at h ⊢
      rw [List.getElem?_cons_succ]
      refine ih ?_
      rw [List.length_cons] at h
      omega

theorem enum_pairwise_fst_lt (l : List SearchSource) :
    l.enum.Pairwise (fun p q => p.1 < q.1) := by
  rw [List.pairwise_iff_getElem]
  intro i j hi hj hij
  rw [List.getElem_enum, List.getElem_enum]
  exact hij

theorem mem_uniqueSources_iff {l : List SearchSource} {t : SearchSource} :
    t ∈ uniqueSources l ↔
      ∃ i : Nat, l[i]? = some t ∧ l.findIdx (fun x => x.uri == t.uri) = i := by
  unfold uniqueSources
  rw [List.mem_map]
  constructor
  · rintro ⟨p, hp, rfl⟩
    rw [List.mem_filter] at hp
    obtain ⟨hmem, hP⟩ := hp
    rw [List.mem_enum_iff_getElem?] at hmem
    refine ⟨p.1, hmem, ?_⟩
    exact eq_of_beq hP
  · rintro ⟨i, hget, hidx⟩
    refine ⟨(i, t), ?_, rfl⟩
    rw [List.mem_filter, List.mem_enum_iff_getElem?]
    refine ⟨hget, ?_⟩
    simp [hidx]

theorem uniqueSources_sublist (l : List SearchSource) :
    (uniqueSources l).Sublist l := by
  unfold uniqueSources
  have h1 := List.filter_sublist (p := fun p : Nat × SearchSource =>
    l.findIdx (fun t => t.uri == p.2.uri) == p.1) l.enum
  have h2 := h1.map Prod.snd
  rwa [List.enum_map_snd] at h2

theorem uniqueSources_pairwise (l : List SearchSource) :
    (uniqueSources l).Pairwise (fun a b => a.uri ≠ b.uri) := by
  unfold uniqueSources
  rw [List.pairwise_map]
  have hlt : (l.enum.filter (fun p => l.findIdx (fun t => t.uri == p.2.uri) == p.1)).Pairwise
      (fun p q => p.1 < q.1) :=
    (enum_pairwise_fst_lt l).filter _
  refine hlt.imp_of_mem ?_
  intro a b ha hb hab
  rw [List.mem_filter] at ha hb
  have hA : l.findIdx (fun t => t.uri == a.2.uri) = a.1 := eq_of_beq ha.2
  have hB : l.findIdx (fun t => t.uri == b.2.uri) = b.1 := eq_of_beq hb.2
  intro huri
  rw [huri] at hA
  rw [hA] at hB
  omega

theorem uniqueSources_covers (l : List SearchSource) :
    ∀ s ∈ l, ∃ t ∈ uniqueSources l, t.uri = s.uri := by
  intro s hs
  set i := l.findIdx (fun x => x.uri == s.uri) with hi
  have hlt : i < l.length :=
    List.findIdx_lt_length_of_exists ⟨s, hs, by simp⟩
  have hp : (l[i].uri == s.uri) = true := List.findIdx_getElem (w := hlt)
  have huri : l[i].uri = s.uri := eq_of_beq hp
  refine ⟨l[i], ?_, huri⟩
  rw [mem_uniqueSources_iff]
  refine ⟨i, List.getElem?_eq_getElem hlt, ?_⟩
  rw [huri, ← hi]

theorem uniqueSources_first_wins (l : List SearchSource) :
    ∀ t ∈ uniqueSources l, l.find? (fun x => x.uri == t.uri) = some t := by
  intro t ht
  rw [mem_uniqueSources_iff] at ht
  obtain ⟨i, hget, hidx⟩ := ht
  have hlt : i < l.length := by
    by_contra hnot
    rw [List.getElem?_eq_none (by omega)] at hget
    exact Option.noConfusion hget
  rw [find?_eq_get_of_findIdx _ _ (hidx ▸ hlt), hidx, hget]

/-! ## Stream folding lemmas -/

theorem foldl_processChunk (chunks : List StreamChunk) (t0 : String)
    (s0 : List SearchSource) (e0 : List String) :
    chunks.foldl processChunk (t0, s0, e0) =
      (t0 ++ concatList (chunkTexts chunks), s0 ++ gatherSources chunks,
        e0 ++ chunkTexts chunks) := by
  induction chunks generalizing t0 s0 e0 with
  | nil => simp [chunkTexts, gatherSources, concatList]
  | cons c cs ih =>
    rw [List.foldl_cons]
    rcases c with ⟨ct, cg⟩
    cases ct with
    | none =>
      cases cg with
      | none =>
        rw [ih]
        simp [processChunk, chunkTexts, gatherSources, List.filterMap_cons]
      | some gcs =>
        rw [ih]
        simp [processChunk, chunkTexts, gatherSources, List.filterMap_cons]
    | some t =>
      by_cases ht : t.isEmpty
      · cases cg with
        | none =>
          rw [ih]
          simp [processChunk, chunkTexts, gatherSources, List.filterMap_cons, ht]
        | some gcs =>
          rw [ih]
          simp [processChunk, chunkTexts, gatherSources, List.filterMap_cons, ht]
      · cases cg with
        | none =>
          rw [ih]
          simp [processChunk, chunkTexts, gatherSources, concatList,
            List.filterMap_cons, ht, String.append_assoc]
        | some gcs =>
          rw [ih]
          simp [processChunk, chunkTexts, gatherSources, concatList,
            List.filterMap_cons, ht, String.append_assoc]

theorem foldl_processFallbackChunk (chunks : List StreamChunk) (t0 : String)
    (e0 : List String) :
    chunks.foldl processFallbackChunk (t0, e0) =
      (t0 ++ concatList (chunkTexts chunks), e0 ++ chunkTexts chunks) := by
  induction chunks generalizing t0 e0 with
  | nil => simp [chunkTexts, concatList]
  | cons c cs ih =>
    rw [List.foldl_cons]
    rcases c with ⟨ct, cg⟩
    cases ct with
    | none =>
      rw [ih]
      simp [processFallbackChunk, chunkTexts, List.filterMap_cons]
    | some t =>
      by_cases ht : t.isEmpty
      · rw [ih]
        simp [processFallbackChunk, chunkTexts, List.filterMap_cons, ht]
      · rw [ih]
        simp [processFallbackChunk, chunkTexts, concatList,
          List.filterMap_cons, ht, String.append_assoc]

/-! ## Orchestrator path lemmas -/

theorem tryFallback_success (chunks : List StreamChunk) :
    tryFallback (.success chunks) =
      .ok (fallbackNotice ++ concatList (chunkTexts chunks),
        fallbackNotice :: chunkTexts chunks) := by
  simp only [tryFallback]
  rw [foldl_processFallbackChunk]
  simp

theorem runCatchBranch_success (chunks : List StreamChunk) :
    runCatchBranch (.success chunks) =
      (⟨fallbackNotice ++ concatList (chunkTexts chunks), []⟩,
        fallbackNotice :: chunkTexts chunks) := by
  unfold runCatchBranch
  rw [tryFallback_success]

theorem runCatchBranch_failure (fb : StreamResult StreamChunk)
    (hf : fb.isFailure = true) :
    ∃ pre, runCatchBranch fb =
      (⟨connectionErrorMsg, []⟩, pre ++ [connectionErrorMsg]) := by
  cases fb with
  | initFail =>
    refine ⟨[], ?_⟩
    simp [runCatchBranch, tryFallback]
  | midFail emitted =>
    refine ⟨fallbackNotice :: chunkTexts emitted, ?_⟩
    simp [runCatchBranch, tryFallback, foldl_processFallbackChunk]
  | success chunks => simp [StreamResult.isFailure] at hf

theorem tryPrimary_failure (p : StreamResult StreamChunk)
    (hp : p.isFailure = true) : ∃ evs, tryPrimary p = .error evs := by
  cases p with
  | initFail => exact ⟨[], rfl⟩
  | midFail emitted =>
    refine ⟨chunkTexts emitted, ?_⟩
    simp [tryPrimary, foldl_processChunk]
  | success chunks => simp [StreamResult.isFailure] at hp

theorem tryPrimary_success (chunks : List StreamChunk) :
    tryPrimary (.success chunks) =
      .ok (⟨concatList (chunkTexts chunks), uniqueSources (gatherSources chunks)⟩,
        chunkTexts chunks) := by
  simp only [tryPrimary]
  rw [foldl_processChunk]
  simp

theorem generate_eq (env : ProviderEnv) (prompt sid : String) (st : ProcState) :
    generateSearchResponse env prompt sid st =
      (match tryPrimary env.primary with
       | .ok re => Except.ok ⟨re.1, re.2, (getOrCreateSession st sid).2⟩
       | .error evs =>
           Except.ok ⟨(runCatchBranch env.fallback).1,
             evs ++ (runCatchBranch env.fallback).2,
             (getOrCreateSession st sid).2⟩) := by
  unfold generateSearchResponse
  cases hgs : getOrCreateSession st sid
  cases tryPrimary env.primary with
  | ok re => simp
  | error evs =>
    cases hrc : runCatchBranch env.fallback
    simp [hrc]

/-! ## Shape of the result sources on every path -/

theorem runCatchBranch_sources (fb : StreamResult StreamChunk) :
    (runCatchBranch fb).1.sources = [] := by
  unfold runCatchBranch
  cases tryFallback fb with
  | ok v => rcases v with ⟨t, e⟩; rfl
  | error e => rfl

/-- C1: for every provider behaviour (primary success, primary failure
with fallback success, and failure of both), every prompt, session id and
process state, `generateSearchResponse` resolves with a
`GenerationResult`-carrying output — the promise is never rejected. -/
theorem generateSearchResponse_never_rejects (env : ProviderEnv)
    (prompt sid : String) (st : ProcState) :
    ∃ out : GenOutput, generateSearchResponse env prompt sid st = .ok out := by
  rw [generate_eq]
  cases tryPrimary env.primary with
  | ok re => exact ⟨_, rfl⟩
  | error evs => exact ⟨_, rfl⟩

/-- C2: `uniqueSources` keeps a sublist of its input (preserving relative
order), the kept entries have pairwise distinct URIs, every input URI is
represented, each kept entry is the first input entry bearing its URI,
and consequently the sources list of every resolved `GenerationResult`
has no two entries with the same URI. -/
theorem uniqueSources_dedup_spec (l : List SearchSource) :
    (uniqueSources l).Sublist l ∧
    (uniqueSources l).Pairwise (fun a b => a.uri ≠ b.uri) ∧
    (∀ s ∈ l, ∃ t ∈ uniqueSources l, t.uri = s.uri) ∧
    (∀ t ∈ uniqueSources l, l.find? (fun x => x.uri == t.uri) = some t) ∧
    (∀ (env : ProviderEnv) (prompt sid : String) (st : ProcState)
        (out : GenOutput),
      generateSearchResponse env prompt sid st = .ok out →
      out.result.sources.Pairwise (fun a b => a.uri ≠ b.uri)) := by
  refine ⟨uniqueSources_sublist l, uniqueSources_pairwise l,
    uniqueSources_covers l, uniqueSources_first_wins l, ?_⟩
  intro env prompt sid st out hrun
  rw [generate_eq] at hrun
  by_cases hfail : env.primary.isFailure = true
  · obtain ⟨evs, htp⟩ := tryPrimary_failure _ hfail
    rw [htp] at hrun
    injection hrun with h
    rw [← h]
    simp [runCatchBranch_sources]
  · rcases hp : env.primary with _ | em | chunks <;> rw [hp] at hfail hrun
    · simp [StreamResult.isFailure] at hfail
    · simp [StreamResult.isFailure] at hfail
    · rw [tryPrimary_success] at hrun
      injection hrun with h
      rw [← h]
      exact uniqueSources_pairwise _

theorem uniqueSources_dedup_spec_witness :
    (uniqueSources [⟨"A", "u1"⟩, ⟨"B", "u2"⟩, ⟨"C", "u1"⟩]).Sublist
        [⟨"A", "u1"⟩, ⟨"B", "u2"⟩, ⟨"C", "u1"⟩] ∧
    (∃ t ∈ uniqueSources [⟨"A", "u1"⟩, ⟨"B", "u2"⟩, ⟨"C", "u1"⟩],
        t.uri = (⟨"C", "u1"⟩ : SearchSource).uri) ∧
    ([⟨"A", "u1"⟩, ⟨"B", "u2"⟩, ⟨"C", "u1"⟩] : List SearchSource).find?
        (fun x => x.uri == (⟨"A", "u1"⟩ : SearchSource).uri) = some ⟨"A", "u1"⟩ := by
  have h := uniqueSources_dedup_spec [⟨"A", "u1"⟩, ⟨"B", "u2"⟩, ⟨"C", "u1"⟩]
  exact ⟨h.1, h.2.2.1 ⟨"C", "u1"⟩ (by decide), h.2.2.2.1 ⟨"A", "u1"⟩ (by decide)⟩

/-- C4: on a successful primary stream, `onChunk` is invoked exactly once
per text-bearing chunk, in emission order (the event list equals the list
of text increments), and the resolved `text` is their in-order
concatenation; the sources are the deduplicated extracted sources. -/
theorem generateSearchResponse_streaming_order (env : ProviderEnv)
    (prompt sid : String) (st : ProcState) (chunks : List StreamChunk)
    (hp : env.primary = .success chunks) :
    generateSearchResponse env prompt sid st =
      .ok ⟨⟨concatList (chunkTexts chunks), uniqueSources (gatherSources chunks)⟩,
        chunkTexts chunks, (getOrCreateSession st sid).2⟩ := by
  rw [generate_eq, hp, tryPrimary_success]

theorem generateSearchResponse_streaming_order_witness :
    generateSearchResponse
        ⟨.success [⟨some "Hel", none⟩, ⟨some "lo", none⟩, ⟨some " world", none⟩],
          .initFail⟩ "q" "s" ⟨[], 0⟩ =
      .ok ⟨⟨"Hello world", []⟩, ["Hel", "lo", " world"], ⟨[("s", ⟨0⟩)], 1⟩⟩ := by
  rw [generateSearchResponse_streaming_order _ "q" "s" ⟨[], 0⟩ _ rfl]
  rfl

/-- C5 counterexample: the resolved text of a successful fallback does not
begin with the bare phrase `"Live search unavailable. Using offline
knowledge."` — the fixed notice string wraps that phrase in a leading
newline and parentheses. -/
theorem fallback_text_not_bare_phrase :
    ¬ ("Live search unavailable. Using offline knowledge.".data <+:
        (match generateSearchResponse ⟨.initFail, .success []⟩ "q" "s" ⟨[], 0⟩ with
          | .ok out => out.result.text
          | .error e => e).data) := by decide

/-- C5 (amended): whenever the primary path fails and the fallback stream
succeeds, the call resolves with text equal to the fixed disclosure notice
`"\n(Live search unavailable. Using offline knowledge.)\n\n"` followed by
the fallback increments, with empty sources; the notice is also delivered
via `onChunk` before the fallback increments. -/
theorem generateSearchResponse_fallback_disclosure (env : ProviderEnv)
    (prompt sid : String) (st : ProcState) (chunks : List StreamChunk)
    (hp : env.primary.isFailure = true) (hf : env.fallback = .success chunks) :
    ∃ pre out, generateSearchResponse env prompt sid st = .ok out ∧
      out.result = ⟨fallbackNotice ++ concatList (chunkTexts chunks), []⟩ ∧
      out.events = pre ++ fallbackNotice :: chunkTexts chunks := by
  obtain ⟨evs, htp⟩ := tryPrimary_failure _ hp
  refine ⟨evs,
    ⟨⟨fallbackNotice ++ concatList (chunkTexts chunks), []⟩,
      evs ++ fallbackNotice :: chunkTexts chunks, (getOrCreateSession st sid).2⟩,
    ?_, rfl, rfl⟩
  rw [generate_eq, htp, hf, runCatchBranch_success]

theorem generateSearchResponse_fallback_disclosure_witness :
    ∃ pre out,
      generateSearchResponse ⟨.initFail, .success [⟨some "Paris", none⟩]⟩
          "q" "s" ⟨[], 0⟩ = .ok out ∧
      out.result = ⟨fallbackNotice ++ "Paris", []⟩ ∧
      out.events = pre ++ fallbackNotice :: ["Paris"] := by
  obtain ⟨pre, out, h1, h2, h3⟩ :=
    generateSearchResponse_fallback_disclosure
      ⟨.initFail, .success [⟨some "Paris", none⟩]⟩ "q" "s" ⟨[], 0⟩
      [⟨some "Paris", none⟩] rfl rfl
  refine ⟨pre, out, h1, ?_, ?_⟩
  · rw [h2]; decide
  · rw [h3]; rfl

/-- C6: whenever both the primary path and the fallback fail, the call
resolves with text equal to the fixed error string, empty sources, and the
error string is the last `onChunk` delivery; there is no further level. -/
theorem generateSearchResponse_terminal_failure (env : ProviderEnv)
    (prompt sid : String) (st : ProcState)
    (hp : env.primary.isFailure = true) (hf : env.fallback.isFailure = true) :
    ∃ pre out, generateSearchResponse env prompt sid st = .ok out ∧
      out.result = ⟨connectionErrorMsg, []⟩ ∧
      out.events = pre ++ [connectionErrorMsg] := by
  obtain ⟨evs, htp⟩ := tryPrimary_failure _ hp
  obtain ⟨pre, hrc⟩ := runCatchBranch_failure _ hf
  refine ⟨evs ++ pre,
    ⟨⟨connectionErrorMsg, []⟩, evs ++ (pre ++ [connectionErrorMsg]),
      (getOrCreateSession st sid).2⟩, ?_, rfl, by rw [List.append_assoc]⟩
  rw [generate_eq, htp, hrc]

theorem generateSearchResponse_terminal_failure_witness :
    ∃ pre out,
      generateSearchResponse ⟨.initFail, .initFail⟩ "q" "s" ⟨[], 0⟩ = .ok out ∧
      out.result = ⟨connectionErrorMsg, []⟩ ∧
      out.events = pre ++ [connectionErrorMsg] :=
  generateSearchResponse_terminal_failure ⟨.initFail, .initFail⟩ "q" "s" ⟨[], 0⟩
    rfl rfl

/-! ## Source extraction (C7, C10) -/

theorem extractSources_foldl_aux (gcs : List GroundingChunk)
    (acc : List SearchSource) :
    gcs.foldl
        (fun acc c =>
          match c.web with
          | some w => acc ++ [⟨jsOrDefault w.title "Source", jsOrDefault w.uri "#"⟩]
          | none => acc)
        acc =
      acc ++ gcs.filterMap
        (fun c => c.web.map
          (fun w => ⟨jsOrDefault w.title "Source", jsOrDefault w.uri "#"⟩)) := by
  induction gcs generalizing acc with
  | nil => simp
  | cons c cs ih =>
    rcases c with ⟨w⟩
    cases w with
    | none => rw [List.foldl_cons, ih]; simp [List.filterMap_cons]
    | some w => rw [List.foldl_cons, ih]; simp [List.filterMap_cons]

/-- C7: `extractSources` emits exactly one `Source` per grounding entry
carrying a `web` reference — with title defaulting to `"Source"` and uri
defaulting to `"#"` when falsy — and emits nothing for entries without a
`web` reference. -/
theorem extractSources_spec (gcs : List GroundingChunk) :
    extractSources gcs =
      gcs.filterMap
        (fun c => c.web.map
          (fun w => ⟨jsOrDefault w.title "Source", jsOrDefault w.uri "#"⟩)) := by
  unfold extractSources
  rw [extractSources_foldl_aux]
  rfl

/-- C10: the placeholder substitution also applies to empty strings: a
`web` entry whose title is `""` yields title `"Source"`, and one whose
uri is `""` yields uri `"#"`. -/
theorem extractSources_empty_string_placeholders (w : WebRef) :
    (w.title = some "" →
      (extractSources [⟨some w⟩]).map SearchSource.title = ["Source"]) ∧
    (w.uri = some "" →
      (extractSources [⟨some w⟩]).map SearchSource.uri = ["#"]) := by
  constructor
  · intro ht
    rcases w with ⟨wt, wu⟩
    cases ht
    simp [extractSources, jsOrDefault]
    rfl
  · intro hu
    rcases w with ⟨wt, wu⟩
    cases hu
    simp [extractSources, jsOrDefault]
    rfl

theorem extractSources_empty_string_placeholders_witness :
    (extractSources [⟨some ⟨some "", some ""⟩⟩]).map SearchSource.title
        = ["Source"] ∧
    (extractSources [⟨some ⟨some "", some ""⟩⟩]).map SearchSource.uri = ["#"] := by
  have h := extractSources_empty_string_placeholders ⟨some "", some ""⟩
  exact ⟨h.1 rfl, h.2 rfl⟩

/-! ## Session registry (C3, C9) -/

theorem mapGet_none_iff {m : List (String × ChatSession)} {k : String} :
    mapGet m k = none ↔ ∀ p ∈ m, p.1 ≠ k := by
  simp [mapGet, List.find?_eq_none]

theorem mapGet_some_mem {m : List (String × ChatSession)} {k : String}
    {c : ChatSession} (h : mapGet m k = some c) : (k, c) ∈ m := by
  unfold mapGet at h
  cases hf : m.find? (fun p => p.1 == k) with
  | none => rw [hf] at h; simp at h
  | some e =>
    rw [hf] at h
    simp only [Option.map_some', Option.some.injEq] at h
    have hp : (e.1 == k) = true := by
      have hq := List.find?_some hf
      exact hq
    have hm : e ∈ m := List.mem_of_find?_eq_some hf
    have hk : e.1 = k := eq_of_beq hp
    rw [← h, ← hk, Prod.mk.eta]
    exact hm

theorem mapGet_append_left {m : List (String × ChatSession)} {k : String}
    {c : ChatSession} (h : mapGet m k = some c)
    (l : List (String × ChatSession)) : mapGet (m ++ l) k = some c := by
  unfold mapGet at h ⊢
  rw [List.find?_append]
  cases hf : m.find? (fun p => p.1 == k) with
  | none => rw [hf] at h; simp at h
  | some p =>
    rw [hf] at h
    simpa using h

theorem mapSet_fresh {m : List (String × ChatSession)} {k : String}
    (v : ChatSession) (h : mapGet m k = none) : mapSet m k v = m ++ [(k, v)] := by
  unfold mapSet
  rw [if_neg]
  simp only [List.any_eq_true, not_exists, not_and]
  intro p hp
  have := (mapGet_none_iff.mp h) p hp
  simp [this]

theorem mapGet_append_self (m : List (String × ChatSession)) (k : String)
    (v : ChatSession) (h : mapGet m k = none) :
    mapGet (m ++ [(k, v)]) k = some v := by
  unfold mapGet
  rw [List.find?_append]
  have hf : m.find? (fun p => p.1 == k) = none := by
    unfold mapGet at h
    exact Option.map_eq_none'.mp h
  rw [hf]
  simp [List.find?]

theorem getOrCreateSession_found {st : ProcState} {sid : String}
    {c : ChatSession} (h : mapGet st.chatSessions sid = some c) :
    getOrCreateSession st sid = (c, st) := by
  unfold getOrCreateSession
  rw [h]

theorem getOrCreateSession_fresh {st : ProcState} {sid : String}
    (h : mapGet st.chatSessions sid = none) :
    getOrCreateSession st sid =
      (⟨st.nextId⟩,
        ⟨st.chatSessions ++ [(sid, ⟨st.nextId⟩)], st.nextId + 1⟩) := by
  unfold getOrCreateSession
  rw [h]
  simp [mapSet_fresh _ h]

theorem registryWF_getOrCreate {st : ProcState} (sid : String)
    (hwf : registryWF st) : registryWF (getOrCreateSession st sid).2 := by
  cases hg : mapGet st.chatSessions sid with
  | some c => rw [getOrCreateSession_found hg]; exact hwf
  | none =>
    rw [getOrCreateSession_fresh hg]
    dsimp only
    obtain ⟨hkeys, hids, hbound⟩ := hwf
    refine ⟨?_, ?_, ?_⟩
    · rw [List.map_append, List.nodup_append]
      refine ⟨hkeys, List.nodup_singleton _, ?_⟩
      intro a ha hb
      simp only [List.map_cons, List.map_nil, List.mem_singleton] at hb
      rw [List.mem_map] at ha
      obtain ⟨p, hp, hpa⟩ := ha
      exact (mapGet_none_iff.mp hg) p hp (by rw [hpa, hb])
    · rw [List.map_append, List.nodup_append]
      refine ⟨hids, List.nodup_singleton _, ?_⟩
      intro a ha hb
      simp only [List.map_cons, List.map_nil, List.mem_singleton] at hb
      rw [List.mem_map] at ha
      obtain ⟨p, hp, hpa⟩ := ha
      have hb2 : a = st.nextId := hb
      have := hbound p hp
      omega
    · intro p hp
      rw [List.mem_append] at hp
      rcases hp with hp | hp
      · have := hbound p hp
        show p.2.allocId < st.nextId + 1
        omega
      · simp only [List.mem_singleton] at hp
        rw [hp]
        show st.nextId < st.nextId + 1
        omega

theorem mapGet_distinct_keys {st : ProcState} (hwf : registryWF st)
    {k k' : String} {c c' : ChatSession} (hne : k ≠ k')
    (h : mapGet st.chatSessions k = some c)
    (h' : mapGet st.chatSessions k' = some c') : c ≠ c' := by
  intro hcc
  have hm := mapGet_some_mem h
  have hm' := mapGet_some_mem h'
  have heq : (k, c) = (k', c') :=
    List.inj_on_of_nodup_map hwf.2.1 hm hm' (by rw [hcc])
  exact hne (congrArg Prod.fst heq)

theorem generate_state (env : ProviderEnv) (prompt sid : String)
    (st : ProcState) (out : GenOutput)
    (hrun : generateSearchResponse env prompt sid st = .ok out) :
    out.state = (getOrCreateSession st sid).2 := by
  rw [generate_eq] at hrun
  cases htp : tryPrimary env.primary with
  | ok re =>
    rw [htp] at hrun
    injection hrun with h
    rw [← h]
  | error evs =>
    rw [htp] at hrun
    injection hrun with h
    rw [← h]

/-- C3: the registry keeps at most one live session per id and the state
stays well-formed; a call with an unseen id creates and stores the fresh
session; a call with a seen id reuses the stored session object and leaves
the registry unchanged; distinct ids never map to the same session object. -/
theorem generateSearchResponse_session_registry (env : ProviderEnv)
    (prompt sid : String) (st : ProcState) (out : GenOutput)
    (hwf : registryWF st)
    (hrun : generateSearchResponse env prompt sid st = .ok out) :
    registryWF out.state ∧
    (mapGet st.chatSessions sid = none →
      mapGet out.state.chatSessions sid = some ⟨st.nextId⟩) ∧
    (∀ c, mapGet st.chatSessions sid = some c →
      getOrCreateSession st sid = (c, st) ∧ out.state = st) ∧
    (∀ sid' c c', sid ≠ sid' →
      mapGet out.state.chatSessions sid = some c →
      mapGet out.state.chatSessions sid' = some c' → c ≠ c') := by
  have hst := generate_state env prompt sid st out hrun
  have hwf' : registryWF out.state := by
    rw [hst]
    exact registryWF_getOrCreate sid hwf
  refine ⟨hwf', ?_, ?_, ?_⟩
  · intro hnone
    rw [hst, getOrCreateSession_fresh hnone]
    exact mapGet_append_self _ _ _ hnone
  · intro c hc
    exact ⟨getOrCreateSession_found hc, by rw [hst, getOrCreateSession_found hc]⟩
  · intro sid' c c' hne h1 h2
    exact mapGet_distinct_keys hwf' hne h1 h2

theorem generateSearchResponse_session_registry_witness :
    registryWF (⟨[("s", ⟨0⟩)], 1⟩ : ProcState) ∧
    mapGet ((⟨[("s", ⟨0⟩)], 1⟩ : ProcState)).chatSessions "s" = some ⟨0⟩ := by
  have h := generateSearchResponse_session_registry ⟨.initFail, .initFail⟩ "q" "s"
    ⟨[], 0⟩ ⟨⟨connectionErrorMsg, []⟩, [connectionErrorMsg], ⟨[("s", ⟨0⟩)], 1⟩⟩
    (by refine ⟨?_, ?_, ?_⟩ <;> simp) rfl
  exact ⟨h.1, h.2.1 rfl⟩

/-- C9: the registry update of a call is exactly the get-or-create step,
performed before any stream outcome is observed (the final state does not
depend on the provider outcomes); existing entries are never removed or
replaced; and after a call with an unseen id whose primary stream failed,
the created session is still registered and any later call with the same
id leaves the registry unchanged. -/
theorem generateSearchResponse_registry_monotone (env : ProviderEnv)
    (prompt sid : String) (st : ProcState) (out : GenOutput)
    (hrun : generateSearchResponse env prompt sid st = .ok out) :
    out.state = (getOrCreateSession st sid).2 ∧
    (∀ k c, mapGet st.chatSessions k = some c →
      mapGet out.state.chatSessions k = some c) ∧
    (mapGet st.chatSessions sid = none → env.primary.isFailure = true →
      mapGet out.state.chatSessions sid = some ⟨st.nextId⟩ ∧
      ∀ (env₂ : ProviderEnv) (prompt₂ : String) (out₂ : GenOutput),
        generateSearchResponse env₂ prompt₂ sid out.state = .ok out₂ →
        out₂.state = out.state) := by
  have hst := generate_state env prompt sid st out hrun
  refine ⟨hst, ?_, ?_⟩
  · intro k c h
    rw [hst]
    cases hg : mapGet st.chatSessions sid with
    | some c0 => rw [getOrCreateSession_found hg]; exact h
    | none => rw [getOrCreateSession_fresh hg]; exact mapGet_append_left h _
  · intro hnone hfail
    have hreg : mapGet out.state.chatSessions sid = some ⟨st.nextId⟩ := by
      rw [hst, getOrCreateSession_fresh hnone]
      exact mapGet_append_self _ _ _ hnone
    refine ⟨hreg, ?_⟩
    intro env₂ prompt₂ out₂ hrun₂
    have hst₂ := generate_state env₂ prompt₂ sid out.state out₂ hrun₂
    rw [hst₂, getOrCreateSession_found hreg]

theorem generateSearchResponse_registry_monotone_witness :
    mapGet ((⟨[("s", ⟨0⟩)], 1⟩ : ProcState)).chatSessions "s" = some ⟨0⟩ ∧
    (⟨⟨"", []⟩, [], ⟨[("s", ⟨0⟩)], 1⟩⟩ : GenOutput).state =
      (⟨⟨connectionErrorMsg, []⟩, [connectionErrorMsg],
        ⟨[("s", ⟨0⟩)], 1⟩⟩ : GenOutput).state := by
  have h := generateSearchResponse_registry_monotone ⟨.initFail, .initFail⟩
    "q" "s" ⟨[], 0⟩
    ⟨⟨connectionErrorMsg, []⟩, [connectionErrorMsg], ⟨[("s", ⟨0⟩)], 1⟩⟩ rfl
  have h3 := h.2.2 rfl rfl
  exact ⟨h3.1, h3.2 ⟨.success [], .initFail⟩ "x"
    ⟨⟨"", []⟩, [], ⟨[("s", ⟨0⟩)], 1⟩⟩ rfl⟩

/-! ## HTTP proxy contract (C8) -/

theorem jsOrDefault_of_falsy {x : Option String} (d : String)
    (h : jsTruthy x = false) : jsOrDefault x d = d := by
  cases x with
  | none => rfl
  | some s =>
    have h2 : s.isEmpty = true := by
      cases he : s.isEmpty <;> simp [jsTruthy, he] at h ⊢
    simp [jsOrDefault, h2]

/-- C8: for every non-preflight request the proxy resolves with either
HTTP 200 and a `{answer, groundingMetadata}` body or HTTP 500 and an
`{error: message}` body; a missing/falsy `query`, a missing API key, a
thrown body parse or fetch, and a non-OK provider reply each produce the
500 error shape; a fully successful call returns the provider's answer
text with the placeholder substituted when the text field is falsy. -/
theorem serveHandler_contract (env : ProxyEnv) (req : ProxyRequest)
    (hm : req.method = "POST") :
    (((serveHandler env req).status = 200 ∧
        ∃ a gm, (serveHandler env req).body = .payload a gm) ∨
      ((serveHandler env req).status = 500 ∧
        ∃ msg, (serveHandler env req).body = .jsonError msg)) ∧
    (∀ msg, req.body = .error msg →
      serveHandler env req = ⟨500, .jsonError msg⟩) ∧
    (∀ b, req.body = .ok b → jsTruthy b.query = false →
      serveHandler env req = ⟨500, .jsonError "Missing 'query' in request body"⟩) ∧
    (∀ b, req.body = .ok b → jsTruthy b.query = true →
      jsTruthy env.apiKey = false →
      serveHandler env req =
        ⟨500, .jsonError "Server Misconfiguration: GEMINI_API_KEY is missing"⟩) ∧
    (∀ b reply, req.body = .ok b → jsTruthy b.query = true →
      jsTruthy env.apiKey = true → env.provider = .ok reply → reply.ok = false →
      serveHandler env req =
        ⟨500, .jsonError (jsOrDefault reply.errorMessage
          "Failed to generate content from Gemini")⟩) ∧
    (∀ b reply, req.body = .ok b → jsTruthy b.query = true →
      jsTruthy env.apiKey = true → env.provider = .ok reply → reply.ok = true →
      serveHandler env req =
        ⟨200, .payload
          (jsOrDefault (reply.candidates.head?.bind Candidate.text)
            noAnswerPlaceholder)
          (reply.candidates.head?.bind Candidate.groundingMetadata)⟩) ∧
    (∀ b reply, req.body = .ok b → jsTruthy b.query = true →
      jsTruthy env.apiKey = true → env.provider = .ok reply → reply.ok = true →
      jsTruthy (reply.candidates.head?.bind Candidate.text) = false →
      serveHandler env req =
        ⟨200, .payload noAnswerPlaceholder
          (reply.candidates.head?.bind Candidate.groundingMetadata)⟩) := by
  have hopt : (req.method == "OPTIONS") = false := by rw [hm]; rfl
  refine ⟨?_, ?_, ?_, ?_, ?_, ?_, ?_⟩
  · rcases hb : req.body with msg | b
    · right
      refine ⟨?_, msg, ?_⟩ <;> simp [serveHandler, hopt, hb]
    · by_cases hq : jsTruthy b.query = true
      · by_cases hk : jsTruthy env.apiKey = true
        · rcases hp : env.provider with msg | reply
          · right
            refine ⟨?_, msg, ?_⟩ <;> simp [serveHandler, hopt, hb, hq, hk, hp]
          · by_cases ho : reply.ok = true
            · left
              refine ⟨?_,
                jsOrDefault (reply.candidates.head?.bind Candidate.text)
                  noAnswerPlaceholder,
                reply.candidates.head?.bind Candidate.groundingMetadata, ?_⟩ <;>
                simp [serveHandler, hopt, hb, hq, hk, hp, ho]
            · right
              refine ⟨?_,
                jsOrDefault reply.errorMessage
                  "Failed to generate content from Gemini", ?_⟩ <;>
                simp [serveHandler, hopt, hb, hq, hk, hp, ho]
        · right
          refine ⟨?_,
            "Server Misconfiguration: GEMINI_API_KEY is missing", ?_⟩ <;>
            simp [serveHandler, hopt, hb, hq, hk]
      · right
        refine ⟨?_, "Missing 'query' in request body", ?_⟩ <;>
          simp [serveHandler, hopt, hb, hq]
  · intro msg hb
    simp [serveHandler, hopt, hb]
  · intro b hb hq
    simp [serveHandler, hopt, hb, hq]
  · intro b hb hq hk
    simp [serveHandler, hopt, hb, hq, hk]
  · intro b reply hb hq hk hp ho
    simp [serveHandler, hopt, hb, hq, hk, hp, ho]
  · intro b reply hb hq hk hp ho
    simp [serveHandler, hopt, hb, hq, hk, hp, ho]
  · intro b reply hb hq hk hp ho htext
    have h6 : serveHandler env req =
        ⟨200, .payload
          (jsOrDefault (reply.candidates.head?.bind Candidate.text)
            noAnswerPlaceholder)
          (reply.candidates.head?.bind Candidate.groundingMetadata)⟩ := by
      simp [serveHandler, hopt, hb, hq, hk, hp, ho]
    rw [h6, jsOrDefault_of_falsy _ htext]

theorem serveHandler_contract_witness :
    serveHandler ⟨some "key", .ok ⟨true, [], none⟩⟩ ⟨"POST", .ok ⟨some "hi"⟩⟩ =
      ⟨200, .payload noAnswerPlaceholder none⟩ ∧
    serveHandler ⟨some "key", .ok ⟨true, [], none⟩⟩ ⟨"POST", .ok ⟨none⟩⟩ =
      ⟨500, .jsonError "Missing 'query' in request body"⟩ := by
  have h1 := serveHandler_contract ⟨some "key", .ok ⟨true, [], none⟩⟩
    ⟨"POST", .ok ⟨some "hi"⟩⟩ rfl
  have h2 := serveHandler_contract ⟨some "key", .ok ⟨true, [], none⟩⟩
    ⟨"POST", .ok ⟨none⟩⟩ rfl
  exact ⟨h1.2.2.2.2.2.2 ⟨some "hi"⟩ ⟨true, [], none⟩ rfl rfl rfl rfl rfl rfl,
    h2.2.2.1 ⟨none⟩ rfl rfl⟩
